import Mathlib

/-!
Verification development for the brief-mvp event pipeline
(supabase edge functions `fetch-events-ai`, `send-digest`).

The TypeScript source is shallowly embedded: JS strings are Lean `String`s,
JS string operations are re-implemented over `List Char` so that they are
executable by kernel reduction, JS `Date` values are epoch milliseconds
(`Int`), JS `Set`s are `List String` used only through membership, and the
JSON values produced by `JSON.parse` are an inductive `Json` type.
-/

/-! ## JS string primitives

`String.trim` / `String.toLowerCase` / `slice` / `startsWith` ... from the
source are modelled over `List Char`.  JS `trim` removes Unicode whitespace;
the model covers the ASCII whitespace characters (space, tab, LF, VT, FF,
CR), which is exhaustive for the data handled by the pipeline.  JS
`toLowerCase` is modelled on the ASCII range. -/

def isJsWs (c : Char) : Bool :=
  c.toNat = 32 || c.toNat = 9 || c.toNat = 10 || c.toNat = 13 || c.toNat = 11 || c.toNat = 12

def trimList (l : List Char) : List Char :=
  ((l.dropWhile isJsWs).reverse.dropWhile isJsWs).reverse

/-- Model of JS `String.prototype.trim`. -/
def jsTrim (s : String) : String := ⟨trimList s.data⟩

/-- Model of JS `String.prototype.toLowerCase` (ASCII range). -/
def lowerChar (c : Char) : Char :=
  if 65 ≤ c.toNat ∧ c.toNat ≤ 90 then Char.ofNat (c.toNat + 32) else c

def jsLower (s : String) : String := ⟨s.data.map lowerChar⟩

def listStartsWith : List Char → List Char → Bool
  | _, [] => true
  | [], _ :: _ => false
  | c :: cs, p :: ps => c == p && listStartsWith cs ps

/-- Model of JS `String.prototype.startsWith`. -/
def jsStartsWith (s pre : String) : Bool := listStartsWith s.data pre.data

/-- Model of JS `String.prototype.endsWith`. -/
def jsEndsWith (s suf : String) : Bool := listStartsWith s.data.reverse suf.data.reverse

/-- Model of JS `String.prototype.slice(n)` (drop the first `n` code units;
all the strings sliced by the pipeline are ASCII, where code units and
characters coincide). -/
def jsDrop (s : String) (n : Nat) : String := ⟨s.data.drop n⟩

/-- Model of JS `String.prototype.slice(0, -n)`. -/
def jsDropRight (s : String) (n : Nat) : String := ⟨s.data.take (s.data.length - n)⟩

/-- Membership test of a JS `Set` of strings (`Set.prototype.has`),
with the set modelled as the list of inserted elements. -/
def hasStr (l : List String) (x : String) : Bool := l.any (fun y => decide (y = x))

theorem hasStr_iff (l : List String) (x : String) : hasStr l x = true ↔ x ∈ l := by
  simp [hasStr, List.any_eq_true]

/-- Insertion into a JS `Set` of strings (`Set.prototype.add`). -/
def addStr (l : List String) (x : String) : List String :=
  if hasStr l x then l else l ++ [x]

/-- Decimal rendering of a natural number (model of JS number-to-string
interpolation for the non-negative integers the pipeline prints). -/
def natToStringAux : Nat → Nat → List Char
  | 0, _ => []
  | fuel + 1, n =>
    if n < 10 then [Char.ofNat (48 + n)]
    else natToStringAux fuel (n / 10) ++ [Char.ofNat (48 + n % 10)]

def natToString (n : Nat) : String := ⟨natToStringAux (n + 1) n⟩

/-! ## UTC calendar model

Epoch milliseconds (`Int`), exactly as JS `Date` time values.  Division is
the Lean `Int` `/` (`Int.ediv`), which agrees with floor division for the
positive divisors used throughout — the same rounding ECMA-262 specifies
for `Day(t)`, `WeekDay(t)`, etc. -/

def msPerDay : Int := 86400000

/-- ES `Day(t)`. -/
def dayOfMs (t : Int) : Int := t / 86400000

/-- ES `WeekDay(t)`: 0 = Sunday, as returned by `Date.prototype.getUTCDay`. -/
def weekdayOfMs (t : Int) : Int := (dayOfMs t + 4) % 7

/-- Gregorian leap-year rule (ES `DaysInYear`). -/
def isLeap (y : Int) : Bool :=
  decide (y % 4 = 0 ∧ (y % 100 ≠ 0 ∨ y % 400 = 0))

def daysInYear (y : Int) : Int := if isLeap y then 366 else 365

/-- Length of month `m` (1-based) of year `y`. -/
def daysInMonth (y : Int) : Nat → Int
  | 1 => 31
  | 2 => if isLeap y then 29 else 28
  | 3 => 31
  | 4 => 30
  | 5 => 31
  | 6 => 30
  | 7 => 31
  | 8 => 31
  | 9 => 30
  | 10 => 31
  | 11 => 30
  | 12 => 31
  | _ => 0

/-- Days from 1970-01-01 to January 1 of year `1970 + k`. -/
def yearAccum : Nat → Int
  | 0 => 0
  | k + 1 => yearAccum k + daysInYear (1970 + k)

/-- Days from January 1 of year `y` to the first day of month `m + 1`
(1-based), i.e. the cumulative month lengths. -/
def monthAccum (y : Int) : Nat → Int
  | 0 => 0
  | m + 1 => monthAccum y m + daysInMonth y (m + 1)

/-- Largest `j ≤ k` with `yearAccum j ≤ r` (the year, within a 400-year era,
containing day `r` of the era). -/
def yearInEraGo (r : Int) : Nat → Nat
  | 0 => 0
  | k + 1 => if yearAccum (k + 1) ≤ r then k + 1 else yearInEraGo r k

def yearInEra (r : Int) : Nat := yearInEraGo r 399

/-- Largest `j ≤ k` (0-based month) with `monthAccum y j ≤ doy`. -/
def monthInYearGo (y : Int) (doy : Int) : Nat → Nat
  | 0 => 0
  | m + 1 => if monthAccum y (m + 1) ≤ doy then m + 1 else monthInYearGo y doy m

/-- 0-based month of day-of-year `doy` in year `y`
(as `Date.prototype.getUTCMonth`). -/
def monthInYear (y : Int) (doy : Int) : Nat := monthInYearGo y doy 11

theorem yearInEraGo_le (r : Int) (hr : 0 ≤ r) :
    ∀ k, yearAccum (yearInEraGo r k) ≤ r := by
  intro k
  induction k with
  | zero => simpa [yearInEraGo, yearAccum] using hr
  | succ k ih =>
    by_cases h : yearAccum (k + 1) ≤ r
    · simp [yearInEraGo, h]
    · simpa [yearInEraGo, h] using ih

theorem yearInEraGo_lt (r : Int) :
    ∀ k, r < yearAccum (k + 1) → r < yearAccum (yearInEraGo r k + 1) := by
  intro k
  induction k with
  | zero => intro h; simpa [yearInEraGo] using h
  | succ k ih =>
    intro h
    by_cases h' : yearAccum (k + 1) ≤ r
    · simpa [yearInEraGo, h'] using h
    · simpa [yearInEraGo, h'] using ih (by omega)

theorem monthInYearGo_le (y : Int) (doy : Int) (hd : 0 ≤ doy) :
    ∀ m, monthAccum y (monthInYearGo y doy m) ≤ doy := by
  intro m
  induction m with
  | zero => simpa [monthInYearGo, monthAccum] using hd
  | succ m ih =>
    by_cases h : monthAccum y (m + 1) ≤ doy
    · simp [monthInYearGo, h]
    · simpa [monthInYearGo, h] using ih

theorem monthInYearGo_lt (y : Int) (doy : Int) :
    ∀ m, doy < monthAccum y (m + 1) → doy < monthAccum y (monthInYearGo y doy m + 1) := by
  intro m
  induction m with
  | zero => intro h; simpa [monthInYearGo] using h
  | succ m ih =>
    intro h
    by_cases h' : monthAccum y (m + 1) ≤ doy
    · simpa [monthInYearGo, h'] using h
    · simpa [monthInYearGo, h'] using ih (by omega)

set_option maxRecDepth 4000 in
theorem yearAccum_400 : yearAccum 400 = 146097 := by decide

theorem isLeap_add_400mul (a q : Int) : isLeap (a + 400 * q) = isLeap a := by
  simp only [isLeap, decide_eq_decide]
  omega

theorem monthAccum_twelve (y : Int) : monthAccum y 12 = daysInYear y := by
  by_cases h : isLeap y = true
  · simp [monthAccum, daysInMonth, daysInYear, h]
  · simp only [Bool.not_eq_true] at h
    simp [monthAccum, daysInMonth, daysInYear, h]

/-! ## Time Window Resolver

Embedding of `getTimeWindowRange` (fetch-events-ai).  `now` is the epoch-ms
time value of `new Date()`.  The mutations `setUTCDate` / `setUTCHours`
performed on the `end` copy are modelled arithmetically: adding `n` days
adds `n * 86400000` ms, and `setUTCHours(23, 59, 59, 999)` moves the value
to offset `86399999` within its UTC day.  The human-readable `description`
field of the source result is not consumed by any later stage and is
omitted. -/

structure TimeWindow where
  wstart : Int
  wend : Int
  deriving DecidableEq, Repr

/-- Epoch ms of 23:59:59.999 UTC on UTC day number `z`
(`setUTCHours(23, 59, 59, 999)` applied to a time on that day). -/
def endOfDayMs (z : Int) : Int := z * 86400000 + 86399999

/-- Epoch ms of the last instant (23:59:59.999 UTC) of the calendar month
containing `t`: the embedding of
`Date.UTC(getUTCFullYear, getUTCMonth + 1, 0, 23, 59, 59, 999)`,
i.e. one millisecond before the first instant of the next month. -/
def endOfCurrentMonthMs (t : Int) : Int :=
  let z := dayOfMs t
  let q := z / 146097
  let r := z % 146097
  let k := yearInEra r
  let y := 1970 + 400 * q + (k : Int)
  let doy := r - yearAccum k
  let m0 := monthInYear y doy
  (q * 146097 + yearAccum k + monthAccum y (m0 + 1)) * 86400000 - 1

/-- Embedding of `getTimeWindowRange`.  The source computes
`normalized = eventWindow || "This month"` (the empty string is falsy in JS)
and switches on it, with `"This month"` sharing the `default` branch. -/
def getTimeWindowRange (eventWindow : String) (now : Int) : TimeWindow :=
  let normalized := if eventWindow = "" then "This month" else eventWindow
  if normalized = "This weekend" then
    let z := dayOfMs now
    let daysUntilSunday := (7 - (z + 4) % 7) % 7
    ⟨now, endOfDayMs (z + daysUntilSunday)⟩
  else if normalized = "Next 7 days" then
    ⟨now, now + 7 * msPerDay⟩
  else if normalized = "Next 2 weeks" then
    ⟨now, now + 14 * msPerDay⟩
  else
    ⟨now, endOfCurrentMonthMs now⟩

theorem le_endOfCurrentMonthMs (t : Int) : t ≤ endOfCurrentMonthMs t := by
  have hr0 : 0 ≤ dayOfMs t % 146097 := by omega
  have hr1 : dayOfMs t % 146097 < 146097 := by omega
  have hle : yearAccum (yearInEra (dayOfMs t % 146097)) ≤ dayOfMs t % 146097 :=
    yearInEraGo_le _ hr0 399
  have hlt : dayOfMs t % 146097 < yearAccum (yearInEra (dayOfMs t % 146097) + 1) :=
    yearInEraGo_lt _ 399 (by rw [yearAccum_400]; exact hr1)
  set z := dayOfMs t with hz
  set q := z / 146097 with hq
  set r := z % 146097 with hrdef
  set k := yearInEra r with hk
  set y : Int := 1970 + 400 * q + (k : Int) with hy
  set doy := r - yearAccum k with hdoy
  have hstep : yearAccum (k + 1) = yearAccum k + daysInYear (1970 + (k : Int)) := rfl
  have hleap : daysInYear y = daysInYear (1970 + (k : Int)) := by
    have : y = (1970 + (k : Int)) + 400 * q := by rw [hy]; ring
    rw [this, daysInYear, daysInYear, isLeap_add_400mul]
  have hdoylt : doy < monthAccum y 12 := by
    rw [monthAccum_twelve, hleap]
    omega
  have hmlt : doy < monthAccum y (monthInYear y doy + 1) := monthInYearGo_lt y doy 11 hdoylt
  have hdoy0 : 0 ≤ doy := by omega
  have hzlt : z < q * 146097 + yearAccum k + monthAccum y (monthInYear y doy + 1) := by omega
  have hteq : t ≤ z * 86400000 + 86399999 := by
    rw [hz, dayOfMs]; omega
  show t ≤ (q * 146097 + yearAccum k + monthAccum y (monthInYear y doy + 1)) * 86400000 - 1
  nlinarith [hzlt, hteq]

/-! ## JSON values and `JSON.parse`

`Json` is the type of values produced by `JSON.parse`.  Numeric literals
are kept as their lexeme: the validator only ever inspects values through
`typeof`-style checks, never through a numeric value.  Character tests are
written against character codes (34 = double quote, 92 = backslash,
91/93 = square brackets, 123/125 = curly braces, 44 = comma, 58 = colon). -/

inductive Json where
  | null
  | bool (b : Bool)
  | num (lexeme : String)
  | str (s : String)
  | arr (items : List Json)
  | obj (fields : List (String × Json))

/-- JSON insignificant whitespace (space, tab, LF, CR). -/
def jsonWs (c : Char) : Bool :=
  c.toNat = 32 || c.toNat = 9 || c.toNat = 10 || c.toNat = 13

def isDigitChar (c : Char) : Bool := 48 ≤ c.toNat && c.toNat ≤ 57

def hexVal (c : Char) : Option Nat :=
  if 48 ≤ c.toNat ∧ c.toNat ≤ 57 then some (c.toNat - 48)
  else if 97 ≤ c.toNat ∧ c.toNat ≤ 102 then some (c.toNat - 87)
  else if 65 ≤ c.toNat ∧ c.toNat ≤ 70 then some (c.toNat - 55)
  else none

/-- Body of a JSON string literal after the opening quote: returns the
decoded characters and the remainder after the closing quote. -/
def parseStrBody : List Char → Option (List Char × List Char)
  | [] => none
  | c :: rest =>
    if c.toNat = 34 then some ([], rest)
    else if c.toNat = 92 then
      match rest with
      | [] => none
      | e :: rest2 =>
        if e.toNat = 34 || e.toNat = 92 || e.toNat = 47 then
          (parseStrBody rest2).map (fun p => (e :: p.1, p.2))
        else if e.toNat = 98 then
          (parseStrBody rest2).map (fun p => (Char.ofNat 8 :: p.1, p.2))
        else if e.toNat = 102 then
          (parseStrBody rest2).map (fun p => (Char.ofNat 12 :: p.1, p.2))
        else if e.toNat = 110 then
          (parseStrBody rest2).map (fun p => (Char.ofNat 10 :: p.1, p.2))
        else if e.toNat = 114 then
          (parseStrBody rest2).map (fun p => (Char.ofNat 13 :: p.1, p.2))
        else if e.toNat = 116 then
          (parseStrBody rest2).map (fun p => (Char.ofNat 9 :: p.1, p.2))
        else if e.toNat = 117 then
          match rest2 with
          | h1 :: h2 :: h3 :: h4 :: rest3 =>
            match hexVal h1, hexVal h2, hexVal h3, hexVal h4 with
            | some a, some b, some c2, some d =>
              (parseStrBody rest3).map
                (fun p => (Char.ofNat (a * 4096 + b * 256 + c2 * 16 + d) :: p.1, p.2))
            | _, _, _, _ => none
          | _ => none
        else none
    else if c.toNat < 32 then none
    else (parseStrBody rest).map (fun p => (c :: p.1, p.2))

def lexDigits1 (l : List Char) : Option (List Char × List Char) :=
  match l.takeWhile isDigitChar with
  | [] => none
  | d => some (d, l.dropWhile isDigitChar)

def lexFrac (l : List Char) : Option (List Char × List Char) :=
  match l with
  | c :: rest =>
    if c.toNat = 46 then (lexDigits1 rest).map (fun p => (c :: p.1, p.2))
    else some ([], l)
  | [] => some ([], [])

def lexExp (l : List Char) : Option (List Char × List Char) :=
  match l with
  | c :: rest =>
    if c.toNat = 101 || c.toNat = 69 then
      match rest with
      | s :: rest2 =>
        if s.toNat = 43 || s.toNat = 45 then
          (lexDigits1 rest2).map (fun p => (c :: s :: p.1, p.2))
        else (lexDigits1 rest).map (fun p => (c :: p.1, p.2))
      | [] => none
    else some ([], l)
  | [] => some ([], [])

/-- JSON number lexeme: `-?(0|[1-9][0-9]*)(\.[0-9]+)?([eE][+-]?[0-9]+)?`. -/
def lexNumber (l : List Char) : Option (List Char × List Char) :=
  match l with
  | [] => none
  | c0 :: rest0 =>
    let sl := if c0.toNat = 45 then ([c0], rest0) else (([] : List Char), l)
    match sl.2 with
    | [] => none
    | c :: _ =>
      if ¬ isDigitChar c then none
      else
        let ip := sl.2.takeWhile isDigitChar
        let l2 := sl.2.dropWhile isDigitChar
        if 1 < ip.length ∧ c.toNat = 48 then none
        else
          match lexFrac l2 with
          | none => none
          | some (fp, l3) =>
            match lexExp l3 with
            | none => none
            | some (ep, l4) => some (sl.1 ++ ip ++ fp ++ ep, l4)

/-- Recursive-descent JSON value parser, fuel-indexed so that it is
structurally recursive (hence kernel-reducible).  The tail of an array or
object is parsed by re-entering the parser on the remainder prefixed with
the opening bracket. -/
def parseVal : Nat → List Char → Option (Json × List Char)
  | 0, _ => none
  | fuel + 1, input =>
    let l := input.dropWhile jsonWs
    match l with
    | [] => none
    | c :: rest =>
      if c.toNat = 110 then
        if listStartsWith l "null".data then some (.null, l.drop 4) else none
      else if c.toNat = 116 then
        if listStartsWith l "true".data then some (.bool true, l.drop 4) else none
      else if c.toNat = 102 then
        if listStartsWith l "false".data then some (.bool false, l.drop 5) else none
      else if c.toNat = 34 then
        match parseStrBody rest with
        | some (content, r2) => some (.str ⟨content⟩, r2)
        | none => none
      else if c.toNat = 91 then
        let r := rest.dropWhile jsonWs
        match r with
        | [] => none
        | d :: r2 =>
          if d.toNat = 93 then some (.arr [], r2)
          else
            match parseVal fuel r with
            | none => none
            | some (v, r3) =>
              match r3.dropWhile jsonWs with
              | [] => none
              | e :: r5 =>
                if e.toNat = 44 then
                  match parseVal fuel (Char.ofNat 91 :: r5) with
                  | some (.arr (v2 :: vs), r6) => some (.arr (v :: v2 :: vs), r6)
                  | _ => none
                else if e.toNat = 93 then some (.arr [v], r5)
                else none
      else if c.toNat = 123 then
        let r := rest.dropWhile jsonWs
        match r with
        | [] => none
        | d :: r2 =>
          if d.toNat = 125 then some (.obj [], r2)
          else if d.toNat = 34 then
            match parseStrBody r2 with
            | none => none
            | some (key, r3) =>
              match r3.dropWhile jsonWs with
              | [] => none
              | e :: r5 =>
                if e.toNat = 58 then
                  match parseVal fuel r5 with
                  | none => none
                  | some (v, r6) =>
                    match r6.dropWhile jsonWs with
                    | [] => none
                    | f :: r8 =>
                      if f.toNat = 44 then
                        match parseVal fuel (Char.ofNat 123 :: r8) with
                        | some (.obj (f2 :: fs), r9) => some (.obj ((⟨key⟩, v) :: f2 :: fs), r9)
                        | _ => none
                      else if f.toNat = 125 then some (.obj [(⟨key⟩, v)], r8)
                      else none
                else none
          else none
      else
        match lexNumber l with
        | some (lx, r2) => some (.num ⟨lx⟩, r2)
        | none => none

/-- Model of `JSON.parse`: `none` models a thrown `SyntaxError`. -/
def parseJson (s : String) : Option Json :=
  match parseVal (s.data.length + 2) s.data with
  | some (v, rest) => if rest.dropWhile jsonWs = [] then some v else none
  | none => none

/-- JS property access `o[k]` on a parsed JSON value: `none` models
`undefined`.  `JSON.parse` keeps the last of duplicate keys, hence the
reversed lookup.  Access on arrays and primitives yields `undefined` for
the (non-numeric) keys the validator reads. -/
def getField (j : Json) (k : String) : Option Json :=
  match j with
  | .obj fields => (fields.reverse.find? (fun p => decide (p.1 = k))).map (·.2)
  | _ => none

/-! ## Date parsing

Model of `new Date(dateString)` / `Date.parse` for the ECMA-262 Date Time
String Format `YYYY[-MM[-DD]][THH:mm[:ss[.sss]]][Z|±HH:mm]` (the format the
extraction prompt requests).  Deviations from the full runtime, none of
which matter for the properties proved: only 4-digit years; a time part is
accepted only after a full `YYYY-MM-DD` date; hour `24` is not accepted;
a missing offset is interpreted as UTC (the timezone of the edge runtime).
Out-of-range components (month 13, February 30, ...) yield `none`,
modelling an invalid date (`getTime()` is `NaN`). -/

/-- ES `DayFromYear(y)`; `Int` division is floor division here since every
divisor is positive. -/
def dayFromYearInt (y : Int) : Int :=
  365 * (y - 1970) + (y - 1969) / 4 - (y - 1901) / 100 + (y - 1601) / 400

/-- Epoch day number of year `y`, month `m` (1-based), day `dd` (1-based). -/
def epochDayOfDate (y : Int) (m dd : Nat) : Int :=
  dayFromYearInt y + monthAccum y (m - 1) + ((dd : Int) - 1)

def d2 (a b : Char) : Option Nat :=
  if isDigitChar a && isDigitChar b then some (10 * (a.toNat - 48) + (b.toNat - 48)) else none

def d4 (a b c d : Char) : Option Nat :=
  match d2 a b, d2 c d with
  | some hi, some lo => some (100 * hi + lo)
  | _, _ => none

/-- Offset suffix: end of input (treated as UTC), `Z`, or `±HH:mm`;
returns the offset in milliseconds to subtract. -/
def parseOffset (l : List Char) : Option Int :=
  match l with
  | [] => some 0
  | z :: rest =>
    if z.toNat = 90 ∧ rest = [] then some 0
    else if z.toNat = 43 ∨ z.toNat = 45 then
      match rest with
      | h1 :: h2 :: c :: m1 :: m2 :: [] =>
        if c.toNat = 58 then
          match d2 h1 h2, d2 m1 m2 with
          | some oh, some om =>
            if oh ≤ 23 ∧ om ≤ 59 then
              let off : Int := ((oh * 60 + om : Nat) : Int) * 60000
              some (if z.toNat = 45 then -off else off)
            else none
          | _, _ => none
        else none
      | _ => none
    else none

/-- Time-of-day part `HH:mm[:ss[.sss]]` plus offset suffix: milliseconds
into the day minus the offset. -/
def parseTime (l : List Char) : Option Int :=
  match l with
  | h1 :: h2 :: c :: m1 :: m2 :: rest =>
    if c.toNat = 58 then
      match d2 h1 h2, d2 m1 m2 with
      | some hh, some mi =>
        if hh ≤ 23 ∧ mi ≤ 59 then
          let base : Int := ((hh * 3600000 + mi * 60000 : Nat) : Int)
          match rest with
          | c2 :: s1 :: s2 :: rest2 =>
            if c2.toNat = 58 then
              match d2 s1 s2 with
              | some ss =>
                if ss ≤ 59 then
                  match rest2 with
                  | c3 :: f1 :: f2 :: f3 :: rest3 =>
                    if c3.toNat = 46 then
                      match d2 f1 f2 with
                      | some fhi =>
                        if isDigitChar f3 then
                          let ms : Int := ((fhi * 10 + (f3.toNat - 48) : Nat) : Int)
                          (parseOffset rest3).map
                            (fun off => base + ((ss : Nat) : Int) * 1000 + ms - off)
                        else none
                      | none => none
                    else
                      (parseOffset rest2).map (fun off => base + ((ss : Nat) : Int) * 1000 - off)
                  | _ =>
                    (parseOffset rest2).map (fun off => base + ((ss : Nat) : Int) * 1000 - off)
                else none
              | none => none
            else (parseOffset rest).map (fun off => base - off)
          | _ => (parseOffset rest).map (fun off => base - off)
        else none
      | _, _ => none
    else none
  | _ => none

/-- Model of `Date.parse` (see the section comment): `none` is an invalid
date, `some ms` the epoch-milliseconds time value. -/
def parseDateMs (s : String) : Option Int :=
  match s.data with
  | y1 :: y2 :: y3 :: y4 :: rest =>
    match d4 y1 y2 y3 y4 with
    | none => none
    | some y =>
      match rest with
      | [] => some (epochDayOfDate (y : Int) 1 1 * 86400000)
      | c :: rest2 =>
        if c.toNat = 45 then
          match rest2 with
          | m1 :: m2 :: rest3 =>
            match d2 m1 m2 with
            | some m =>
              if 1 ≤ m ∧ m ≤ 12 then
                match rest3 with
                | [] => some (epochDayOfDate (y : Int) m 1 * 86400000)
                | c2 :: rest4 =>
                  if c2.toNat = 45 then
                    match rest4 with
                    | e1 :: e2 :: rest5 =>
                      match d2 e1 e2 with
                      | some dd =>
                        if 1 ≤ dd ∧ ((dd : Int) ≤ daysInMonth (y : Int) m) then
                          match rest5 with
                          | [] => some (epochDayOfDate (y : Int) m dd * 86400000)
                          | t :: rest6 =>
                            if t.toNat = 84 then
                              (parseTime rest6).map
                                (fun tm => epochDayOfDate (y : Int) m dd * 86400000 + tm)
                            else none
                        else none
                      | none => none
                    | _ => none
                  else none
              else none
            | none => none
          | _ => none
        else none
  | _ => none

/-! ## URL host extraction

Model of `new URL(u).host` for absolute URLs: `none` models the
constructor throwing.  Captured behaviour: leading/trailing C0
controls/space are stripped and interior tab/newline removed; a URL must
start with `scheme:` (letter, then letters/digits/`+`/`-`/`.`); for the
special network schemes the authority follows any run of slashes, userinfo
before the last `@` is dropped, an empty host or a forbidden host
character or a non-numeric port throws, and the returned host is
lowercased and keeps any explicit port.  Simplifications (unobservable in
the properties proved, which treat the parser as one shared function): no
percent-decoding/IDNA/IPv4-IPv6 normalization and no default-port
elision. -/

def isAsciiAlpha (c : Char) : Bool :=
  (65 ≤ c.toNat && c.toNat ≤ 90) || (97 ≤ c.toNat && c.toNat ≤ 122)

def isSchemeChar (c : Char) : Bool :=
  isAsciiAlpha c || isDigitChar c || c.toNat = 43 || c.toNat = 45 || c.toNat = 46

/-- WHATWG forbidden host code points (the tab/LF/CR cases are removed
before parsing). -/
def isHostForbidden (c : Char) : Bool :=
  c.toNat = 0 || c.toNat = 32 || c.toNat = 35 || c.toNat = 47 || c.toNat = 60 ||
  c.toNat = 62 || c.toNat = 63 || c.toNat = 64 || c.toNat = 91 || c.toNat = 92 ||
  c.toNat = 93 || c.toNat = 94 || c.toNat = 124

/-- Segment after the last `@` (the whole list when there is none). -/
def afterLastAt (l : List Char) : List Char :=
  (l.reverse.takeWhile (fun c => !(c.toNat = 64))).reverse

/-- Hostname/port split and validation; `auth` is the authority with
userinfo already removed. -/
def hostOfAuthority (auth : List Char) (allowEmpty : Bool) : Option String :=
  let hostname := auth.takeWhile (fun c => !(c.toNat = 58))
  let portPart := auth.dropWhile (fun c => !(c.toNat = 58))
  if hostname = [] ∧ ¬ allowEmpty then none
  else if hostname.any isHostForbidden then none
  else
    match portPart with
    | [] => some ⟨hostname.map lowerChar⟩
    | _ :: p =>
      if p = [] then some ⟨hostname.map lowerChar⟩
      else if p.all isDigitChar then some ⟨(hostname.map lowerChar) ++ [Char.ofNat 58] ++ p⟩
      else none

def specialSchemes : List String := ["http", "https", "ws", "wss", "ftp"]

/-- Model of `new URL(u).host` (see the section comment). -/
def urlHost (s : String) : Option String :=
  let l0 := ((s.data.dropWhile (fun c => c.toNat ≤ 32)).reverse.dropWhile
    (fun c => c.toNat ≤ 32)).reverse
  let l := l0.filter (fun c => !(c.toNat = 9 || c.toNat = 10 || c.toNat = 13))
  match l with
  | [] => none
  | c :: _ =>
    if ¬ isAsciiAlpha c then none
    else
      let scheme : String := ⟨(l.takeWhile isSchemeChar).map lowerChar⟩
      match l.dropWhile isSchemeChar with
      | [] => none
      | colon :: rest2 =>
        if colon.toNat = 58 then
          if hasStr specialSchemes scheme then
            let r := rest2.dropWhile (fun c => c.toNat = 47 || c.toNat = 92)
            let auth := r.takeWhile
              (fun c => !(c.toNat = 47 || c.toNat = 92 || c.toNat = 63 || c.toNat = 35))
            hostOfAuthority (afterLastAt auth) false
          else if scheme = "file" then
            let r := rest2.dropWhile (fun c => c.toNat = 47 || c.toNat = 92)
            let auth := r.takeWhile
              (fun c => !(c.toNat = 47 || c.toNat = 92 || c.toNat = 63 || c.toNat = 35))
            hostOfAuthority (afterLastAt auth) true
          else
            match rest2 with
            | a :: b :: rest3 =>
              if a.toNat = 47 ∧ b.toNat = 47 then
                let auth := rest3.takeWhile
                  (fun c => !(c.toNat = 47 || c.toNat = 92 || c.toNat = 63 || c.toNat = 35))
                hostOfAuthority (afterLastAt auth) true
              else some ""
            | _ => some ""
        else none

/-! ## Genre vocabulary and the all-genres sentinel

Embedding of `KNOWN_GENRES` and `isAllGenresSelection`, which appear
verbatim in both `fetch-events-ai` and the grounded pipeline.  The
argument of the function is `string[] | undefined | null`; `none` models
`undefined`/`null`. -/

def KNOWN_GENRES : List String :=
  ["Indie Rock", "Jazz", "Electronic", "Hip Hop", "Classical", "World Music",
   "Pop", "R&B", "Alternative", "Folk", "Punk", "Metal"]

/-- Embedding of `new Set(genres.map((g) => g.trim()).filter(Boolean))`. -/
def trimmedSelected (genres : List String) : List String :=
  (genres.map jsTrim).filter (fun g => g ≠ "")

def isAllGenresSelection (genres : Option (List String)) : Bool :=
  match genres with
  | none => false
  | some gs =>
    if gs.length = 0 then false
    else KNOWN_GENRES.all (fun g => hasStr (trimmedSelected gs) g)

/-! ## Event Validator / Filter

Embedding of `validateAndFilterEvents` (fetch-events-ai).  The loop body is
split into the field-extraction step (`extractCandidate`, lines 535–554 of
the source: object check, string coercion with trim, array filtering) and
the guard chain (`checkFields`, lines 556–580).  `continue` is modelled by
`none`; `out.push` by `some`. -/

structure EventOut where
  event_name : String
  artists : List String
  genres : List String
  date : String
  venue : String
  event_url : String
  deriving DecidableEq, Repr

/-- Raw candidate fields after extraction/coercion. -/
structure CandidateFields where
  event_name : String
  venue : String
  date : String
  event_url : String
  artists : List String
  genres : List String
  deriving DecidableEq, Repr

/-- Validation context: the genre list of the brief (`undefined` as `none`),
the grounding allow-lists, and the resolved window bounds. -/
structure ValidateOpts where
  genres : Option (List String)
  allowedUrls : List String
  allowedHosts : List String
  wstart : Int
  wend : Int

/-- Embedding of `typeof e.k === "string" ? e.k.trim() : ""`. -/
def strField (item : Json) (k : String) : String :=
  match getField item k with
  | some (Json.str s) => jsTrim s
  | _ => ""

/-- Embedding of `Array.isArray(e.k) ? e.k.filter(string).map(trim).filter(Boolean) : []`. -/
def arrField (item : Json) (k : String) : List String :=
  match getField item k with
  | some (Json.arr xs) =>
    ((xs.filterMap (fun x => match x with | Json.str s => some s | _ => none)).map
      jsTrim).filter (fun s => s ≠ "")
  | _ => []

/-- Embedding of `if (!item || typeof item !== "object") continue;` and the field
extraction.  In JS, arrays also have `typeof "object"` and `null` is falsy,
so exactly objects and arrays pass; property access on an array yields
`undefined` for these keys. -/
def extractCandidate (item : Json) : Option CandidateFields :=
  match item with
  | Json.obj _ | Json.arr _ =>
    some
      { event_name := strField item "event_name"
        venue := strField item "venue"
        date := strField item "date"
        event_url := strField item "event_url"
        artists := arrField item "artists"
        genres := arrField item "genres" }
  | _ => none

/-- Embedding of `(opts.brief.genres || []).map((g) => g.toLowerCase().trim()).filter(Boolean)`
(the `Set` is modelled by the list, used only through membership). -/
def preferredGenres (genres : Option (List String)) : List String :=
  ((genres.getD []).map (fun g => jsTrim (jsLower g))).filter (fun g => g ≠ "")

/-- Embedding of `preferredGenres.size > 0 && !isAllGenresSelection(opts.brief.genres)`. -/
def applyGenreFilter (genres : Option (List String)) : Bool :=
  decide (preferredGenres genres ≠ []) && ! isAllGenresSelection genres

/-- Guard chain of the loop body: non-emptiness, date window, URL
grounding, genre intersection. -/
def checkFields (opts : ValidateOpts) (c : CandidateFields) : Option EventOut :=
  if c.event_name = "" ∨ c.date = "" ∨ c.venue = "" ∨ c.event_url = "" then none
  else
    match parseDateMs c.date with
    | none => none
    | some parsed =>
      if parsed < opts.wstart ∨ parsed > opts.wend then none
      else
        match urlHost c.event_url with
        | none => none
        | some host =>
          if ¬ (hasStr opts.allowedUrls c.event_url ||
              (decide (host ≠ "") && hasStr opts.allowedHosts host)) = true then none
          else
            if applyGenreFilter opts.genres ∧
                ¬ (c.genres.any (fun g => hasStr (preferredGenres opts.genres) (jsTrim (jsLower g)))) then
              none
            else
              some ⟨c.event_name, c.artists, c.genres, c.date, c.venue, c.event_url⟩

def checkCandidate (opts : ValidateOpts) (item : Json) : Option EventOut :=
  (extractCandidate item).bind (checkFields opts)

/-- Embedding of `out.filter` with the mutable `seen` set threaded explicitly:
keep the first occurrence of each `event_url`. -/
def dedupByUrl : List EventOut → List String → List EventOut
  | [], _ => []
  | e :: rest, seen =>
    if hasStr seen e.event_url then dedupByUrl rest seen
    else e :: dedupByUrl rest (e.event_url :: seen)

/-- The per-candidate survivors, in input order (`out` at the end of the
loop). -/
def filteredCandidates (raw : Json) (opts : ValidateOpts) : List EventOut :=
  match raw with
  | Json.arr items => items.filterMap (checkCandidate opts)
  | _ => []

/-- Embedding of `validateAndFilterEvents`: non-arrays yield `[]`
(the early return of the source, here via `filteredCandidates`), then the loop,
the URL dedup and `slice(0, 10)`. -/
def validateAndFilterEvents (raw : Json) (opts : ValidateOpts) : List EventOut :=
  (dedupByUrl (filteredCandidates raw opts) []).take 10

/-! ## Grounding Index

Embedding of `extractUrls` (the regex scan for absolute URLs) and
`buildAllowedUrlSets`.  The regex is `https?://` followed by one or more
characters outside whitespace and the closing characters
`)`, `]`, `\x7d`, `>`, `"`, apostrophe; matches are collected left to right,
non-overlapping, greedy, then deduplicated keeping first occurrences. -/

def urlStopChar (c : Char) : Bool :=
  isJsWs c || c.toNat = 41 || c.toNat = 93 || c.toNat = 125 || c.toNat = 62 ||
  c.toNat = 34 || c.toNat = 39

/-- A regex match starting exactly at the head of `l`:
the matched text and the remainder. -/
def tryUrlAt (l : List Char) : Option (String × List Char) :=
  if listStartsWith l "https://".data then
    match (l.drop 8).takeWhile (fun c => ! urlStopChar c) with
    | [] => none
    | body => some (⟨"https://".data ++ body⟩, (l.drop 8).dropWhile (fun c => ! urlStopChar c))
  else if listStartsWith l "http://".data then
    match (l.drop 7).takeWhile (fun c => ! urlStopChar c) with
    | [] => none
    | body => some (⟨"http://".data ++ body⟩, (l.drop 7).dropWhile (fun c => ! urlStopChar c))
  else none

def scanUrls : Nat → List Char → List String
  | 0, _ => []
  | _, [] => []
  | fuel + 1, l@(_ :: rest) =>
    match tryUrlAt l with
    | some (u, remaining) => u :: scanUrls fuel remaining
    | none => scanUrls fuel rest

def dedupStr : List String → List String → List String
  | [], _ => []
  | s :: rest, seen =>
    if hasStr seen s then dedupStr rest seen
    else s :: dedupStr rest (s :: seen)

/-- Embedding of `text.match(/https?:\/\/[^...]+/g)` deduplicated via
`Array.from(new Set(...))`. -/
def extractUrls (text : String) : List String :=
  dedupStr (scanUrls (text.data.length + 1) text.data) []

/-- A document `url` / `title` / `markdown` as produced by the Firecrawl search. -/
structure SourceDoc where
  url : String
  title : Option String
  markdown : String

/-- Embedding of `buildAllowedUrlSets`: seed with the own URL of each document
and host, then every URL discovered in its markdown and the host of that URL;
URL-parse failures are skipped (`catch` with an empty body). -/
def buildAllowedUrlSets (sources : List SourceDoc) : List String × List String :=
  sources.foldl
    (fun acc s =>
      let acc1 := (addStr acc.1 s.url,
        match urlHost s.url with
        | some h => addStr acc.2 h
        | none => acc.2)
      (extractUrls s.markdown).foldl
        (fun acc2 u =>
          (addStr acc2.1 u,
            match urlHost u with
            | some h => addStr acc2.2 h
            | none => acc2.2))
        acc1)
    ([], [])

/-! ## Markdown fence stripping and response parsing

Embedding of the response-cleaning block of the `fetch-events-ai` handler
(`let cleanContent = String(content).trim(); ...`).  A thrown JSON parse
error is caught and degrades to an empty event list, modelled by the
`Option` returned by `parseJson`. -/

def stripCodeFence (s : String) : String :=
  let c0 := jsTrim s
  let c1 :=
    if jsStartsWith c0 "```json" then jsDrop c0 7
    else if jsStartsWith c0 "```" then jsDrop c0 3
    else c0
  let c2 := if jsEndsWith c1 "```" then jsDropRight c1 3 else c1
  jsTrim c2

/-- The handler block `try ... catch` around parse and validate, taken as a
total function of the raw model output. -/
def extractEventsFromContent (content : String) (opts : ValidateOpts) : List EventOut :=
  match parseJson (stripCodeFence content) with
  | none => []
  | some v => validateAndFilterEvents v opts

/-! ## Source Gatherer: search query construction

Embedding of `VENUE_DOMAINS` (insertion order preserved, as JS string-keyed
records iterate in insertion order) and `buildSearchQueries`. -/

def VENUE_DOMAINS : List (String × List String) :=
  [("barby", ["barby.co.il"]),
   ("teder", ["teder.fm"]),
   ("levontin7", ["levontin7.com"]),
   ("kuli-alma", ["facebook.com", "instagram.com"]),
   ("ozen-bar", ["ozen.co.il"]),
   ("suzanne-dellal", ["suzannedellal.org.il"]),
   ("artport", ["artport.art"]),
   ("secret-telaviv", ["secrettelaviv.com"]),
   ("go-out", ["go-out.co"]),
   ("eventim", ["eventim.co.il"]),
   ("ticketmaster", ["ticketmaster.co.il"]),
   ("tlv-municipality", ["tel-aviv.gov.il"])]

/-- Embedding of `VENUE_DOMAINS[venueId] || []`. -/
def lookupDomains (venueId : String) : List String :=
  match VENUE_DOMAINS.find? (fun p => decide (p.1 = venueId)) with
  | some p => p.2
  | none => []

/-- One loop iteration: `domains[0]`, `if (!domain) continue`, and the
query template `site:$\x7bdomain\x7d Tel Aviv events $\x7byear\x7d`. -/
def mkQuery (venueId : String) (year : Nat) : Option String :=
  match (lookupDomains venueId).head? with
  | some d =>
    if d = "" then none
    else some ("site:" ++ d ++ " Tel Aviv events " ++ natToString year)
  | none => none

/-- The `queries` array before dedup/cap, over the selected venues (or all
known venues when none are selected: `brief.venues?.length ? ... :
Object.keys(VENUE_DOMAINS)`). -/
def buildSearchQueriesRaw (venues : List String) (year : Nat) : List String :=
  let venueIds := if venues ≠ [] then venues else VENUE_DOMAINS.map (fun p => p.1)
  venueIds.filterMap (fun vid => mkQuery vid year)

/-- Embedding of `buildSearchQueries`:
`Array.from(new Set(queries)).slice(0, 6)`. -/
def buildSearchQueries (venues : List String) (year : Nat) : List String :=
  (dedupStr (buildSearchQueriesRaw venues year) []).take 6

/-! ## Prompt Builder genre fragments

The two places `buildPrompt` consults the all-genres sentinel: the
`preferred_genres` display value and the genre rule line of the prompt. -/

def promptPreferredGenres (genres : List String) : String :=
  if genres.length = 0 ∨ isAllGenresSelection (some genres) then "any genre"
  else String.intercalate ", " genres

def promptGenreRule (genres : List String) : String :=
  if isAllGenresSelection (some genres) ∨ genres.length = 0 then
    "- genre: no filtering required.\n"
  else "- genre MUST include at least one of preferred_genres.\n"

/-! ## Handler pipeline after source gathering

The `fetch-events-ai` handler once the (external, I/O-bound) source
gathering and model call are abstracted as inputs: if no sources were
gathered it returns HTTP 200 with an empty event list and a
`diagnostics.sourceCount = 0` marker WITHOUT calling the model; otherwise
it resolves the window, builds the allow-lists and validates the model
output.  `calledAI` records whether the model request would be issued. -/

structure Brief where
  artists : List String
  genres : Option (List String)
  venues : List String
  eventWindow : Option String

structure DiscoveryResult where
  status : Nat
  events : List EventOut
  sourceCount : Nat
  calledAI : Bool
  deriving DecidableEq, Repr

def fetchEventsPipeline (brief : Brief) (sources : List SourceDoc)
    (aiContent : String) (now : Int) : DiscoveryResult :=
  if sources.length = 0 then
    { status := 200, events := [], sourceCount := 0, calledAI := false }
  else
    let ewArg :=
      match brief.eventWindow with
      | none => "This month"
      | some s => if s = "" then "This month" else s
    let window := getTimeWindowRange ewArg now
    let allow := buildAllowedUrlSets sources
    let opts : ValidateOpts :=
      { genres := brief.genres, allowedUrls := allow.1, allowedHosts := allow.2,
        wstart := window.wstart, wend := window.wend }
    { status := 200, events := extractEventsFromContent aiContent opts,
      sourceCount := sources.length, calledAI := true }

/-! ## Digest Composer

Embedding of `formatWhatsAppMessage` and `formatEmailHtml` (send-digest).
Optional event fields are `Option`s; JS truthiness tests (`event.time ?`,
`event.url ?`) also reject the empty string.  Template literals are
reproduced including their embedded newlines and indentation. -/

structure DigestEvent where
  id : String
  title : String
  venue : String
  date : String
  time : Option String
  artists : Option (List String)
  genres : Option (List String)
  url : Option String
  description : Option String
  deriving DecidableEq, Repr

/-- JS `Array.prototype.join(sep)`. -/
def joinSep (sep : String) : List String → String
  | [] => ""
  | [x] => x
  | x :: y :: rest => x ++ sep ++ joinSep sep (y :: rest)

/-- The zero-event WhatsApp message. -/
def whatsAppNoEvents (briefName : String) : String :=
  "📭 *" ++ briefName ++
    "*\n\nNo matching events found for your preferences this time. We\x27ll keep looking!"

/-- One numbered WhatsApp event block (the `forEach` body). -/
def renderWhatsAppEvent (index : Nat) (e : DigestEvent) : String :=
  natToString (index + 1) ++ ". *" ++ e.title ++ "*\n" ++
  "   📍 " ++ e.venue ++ "\n" ++
  "   📅 " ++ e.date ++
    (match e.time with
     | some t => if t = "" then "" else " at " ++ t
     | none => "") ++ "\n" ++
  (match e.genres with
   | some gs => if gs.length > 0 then "   🎸 " ++ joinSep ", " gs ++ "\n" else ""
   | none => "") ++
  (match e.url with
   | some u => if u = "" then "" else "   🔗 " ++ u ++ "\n"
   | none => "") ++
  "\n"

/-- Overflow suffix (newline, ellipsis, count), appended when more than 10 events
exist. -/
def whatsAppOverflow (n : Nat) : String :=
  if n > 10 then "\n... and " ++ natToString (n - 10) ++ " more events!" else ""

def formatWhatsAppMessage (briefName : String) (events : List DigestEvent) : String :=
  if events.length = 0 then whatsAppNoEvents briefName
  else
    "🎵 *" ++ briefName ++ "*\n\n" ++
    "Found " ++ natToString events.length ++ " event" ++
      (if events.length > 1 then "s" else "") ++ " matching your preferences:\n\n" ++
    String.join ((events.take 10).enum.map (fun p => renderWhatsAppEvent p.1 p.2)) ++
    whatsAppOverflow events.length

/-- The zero-event email body. -/
def emailNoEvents (briefName : String) : String :=
  "\n      <div style=\"font-family: Arial, sans-serif; max-width: 600px; margin: 0 auto;\">\n" ++
  "        <h1 style=\"color: #f97316;\">📭 " ++ briefName ++ "</h1>\n" ++
  "        <p>No matching events found for your preferences this time. We\x27ll keep looking!</p>\n" ++
  "      </div>\n    "

/-- One email event card (the `events.slice(0, 15).map(...)` body). -/
def renderEmailCard (e : DigestEvent) : String :=
  "\n    <div style=\"background: #f8fafc; border-radius: 8px; padding: 16px; margin-bottom: 12px;\">\n" ++
  "      <h3 style=\"margin: 0 0 8px; color: #1e293b;\">" ++ e.title ++ "</h3>\n" ++
  "      <p style=\"margin: 4px 0; color: #64748b;\">📍 " ++ e.venue ++ "</p>\n" ++
  "      <p style=\"margin: 4px 0; color: #64748b;\">📅 " ++ e.date ++
    (match e.time with
     | some t => if t = "" then "" else " at " ++ t
     | none => "") ++ "</p>\n" ++
  "      " ++
  (match e.genres with
   | some gs =>
     if gs.length > 0 then
       "<p style=\"margin: 4px 0; color: #f97316;\">🎸 " ++ joinSep ", " gs ++ "</p>"
     else ""
   | none => "") ++ "\n" ++
  "      " ++
  (match e.url with
   | some u =>
     if u = "" then ""
     else "<a href=\"" ++ u ++ "\" style=\"color: #f97316; text-decoration: none;\">View Details →</a>"
   | none => "") ++ "\n" ++
  "    </div>\n  "

/-- The `events.length > 15` overflow paragraph. -/
def emailOverflow (n : Nat) : String :=
  if n > 15 then
    "<p style=\"color: #64748b; text-align: center;\">... and " ++ natToString (n - 15) ++
      " more events!</p>"
  else ""

def formatEmailHtml (briefName : String) (events : List DigestEvent) : String :=
  if events.length = 0 then emailNoEvents briefName
  else
    "\n    <div style=\"font-family: Arial, sans-serif; max-width: 600px; margin: 0 auto; padding: 20px;\">\n" ++
    "      <h1 style=\"color: #f97316; margin-bottom: 4px;\">🎵 " ++ briefName ++ "</h1>\n" ++
    "      <p style=\"color: #64748b; margin-top: 0;\">Found " ++ natToString events.length ++
      " event" ++ (if events.length > 1 then "s" else "") ++ " matching your preferences</p>\n      \n      " ++
    String.join ((events.take 15).map renderEmailCard) ++
    "\n      \n      " ++
    emailOverflow events.length ++
    "\n      \n      <hr style=\"border: none; border-top: 1px solid #e2e8f0; margin: 24px 0;\">\n" ++
    "      <p style=\"color: #94a3b8; font-size: 12px; text-align: center;\">\n" ++
    "        You\x27re receiving this because you subscribed to Brief AI digests.<br>\n" ++
    "        Manage your preferences in the app.\n      </p>\n    </div>\n  "

/-! ## Validator guard-chain lemmas -/

theorem checkFields_inv (opts : ValidateOpts) (c : CandidateFields) (e : EventOut)
    (h : checkFields opts c = some e) :
    e = ⟨c.event_name, c.artists, c.genres, c.date, c.venue, c.event_url⟩ ∧
    c.event_name ≠ "" ∧ c.date ≠ "" ∧ c.venue ≠ "" ∧ c.event_url ≠ "" ∧
    (∃ ms, parseDateMs c.date = some ms ∧ opts.wstart ≤ ms ∧ ms ≤ opts.wend) ∧
    (∃ host, urlHost c.event_url = some host ∧
      (hasStr opts.allowedUrls c.event_url = true ∨
        (host ≠ "" ∧ hasStr opts.allowedHosts host = true))) ∧
    (applyGenreFilter opts.genres = true →
      c.genres.any (fun g => hasStr (preferredGenres opts.genres) (jsTrim (jsLower g))) = true) := by
  unfold checkFields at h
  split at h
  · exact absurd h (by simp)
  next h1 =>
    push_neg at h1
    obtain ⟨hn, hd, hv, hu⟩ := h1
    split at h
    · exact absurd h (by simp)
    next ms hms =>
      split at h
      · exact absurd h (by simp)
      next h2 =>
        push_neg at h2
        split at h
        · exact absurd h (by simp)
        next host hhost =>
          split at h
          · exact absurd h (by simp)
          next h3 =>
            rw [not_not, Bool.or_eq_true, Bool.and_eq_true, decide_eq_true_eq] at h3
            split at h
            · exact absurd h (by simp)
            next h4 =>
              refine ⟨by injection h with h'; exact h'.symm, hn, hd, hv, hu,
                ⟨ms, hms, h2.1, h2.2⟩, ⟨host, hhost, ?_⟩, ?_⟩
              · rcases h3 with ht | ⟨hne, hh⟩
                · exact Or.inl ht
                · exact Or.inr ⟨hne, hh⟩
              · intro hg
                by_contra hany
                exact h4 ⟨hg, by simpa using hany⟩

theorem checkFields_accepts (opts : ValidateOpts) (c : CandidateFields)
    (h1 : c.event_name ≠ "") (h2 : c.date ≠ "") (h3 : c.venue ≠ "") (h4 : c.event_url ≠ "")
    (ms : Int) (hms : parseDateMs c.date = some ms)
    (hlo : opts.wstart ≤ ms) (hhi : ms ≤ opts.wend)
    (host : String) (hhost : urlHost c.event_url = some host)
    (hurl : hasStr opts.allowedUrls c.event_url = true ∨
      (host ≠ "" ∧ hasStr opts.allowedHosts host = true))
    (hgen : applyGenreFilter opts.genres = true →
      c.genres.any (fun g => hasStr (preferredGenres opts.genres) (jsTrim (jsLower g))) = true) :
    checkFields opts c =
      some ⟨c.event_name, c.artists, c.genres, c.date, c.venue, c.event_url⟩ := by
  have hurlOk : (hasStr opts.allowedUrls c.event_url ||
      (decide (host ≠ "") && hasStr opts.allowedHosts host)) = true := by
    rcases hurl with ht | ⟨hne, hh⟩
    · simp [ht]
    · simp [hne, hh]
  unfold checkFields
  rw [if_neg (by tauto), hms]
  have hdate : ¬ (ms < opts.wstart ∨ ms > opts.wend) := by omega
  simp only [hdate, if_false, hhost, hurlOk, not_true, ite_false]
  split
  next hg =>
    exact absurd (hgen hg.1) (by simpa using hg.2)
  next => rfl

/-! ## Deduplication lemmas -/

theorem dedupByUrl_sublist : ∀ (l : List EventOut) (seen : List String),
    (dedupByUrl l seen).Sublist l := by
  intro l
  induction l with
  | nil => intro seen; simp [dedupByUrl]
  | cons e rest ih =>
    intro seen
    by_cases h : hasStr seen e.event_url = true
    · simpa [dedupByUrl, h] using (ih seen).cons e
    · simp only [Bool.not_eq_true] at h
      simpa [dedupByUrl, h] using (ih (e.event_url :: seen)).cons₂ e

theorem mem_dedupByUrl_not_seen : ∀ (l : List EventOut) (seen : List String)
    (x : EventOut), x ∈ dedupByUrl l seen → hasStr seen x.event_url = false := by
  intro l
  induction l with
  | nil => intro seen x hx; simp [dedupByUrl] at hx
  | cons e rest ih =>
    intro seen x hx
    by_cases h : hasStr seen e.event_url = true
    · rw [dedupByUrl, if_pos h] at hx
      exact ih seen x hx
    · simp only [Bool.not_eq_true] at h
      rw [dedupByUrl, if_neg (by simp [h])] at hx
      rcases List.mem_cons.mp hx with rfl | hx'
      · exact h
      · have := ih (e.event_url :: seen) x hx'
        rw [hasStr] at this ⊢
        simp only [List.any_cons, Bool.or_eq_false_iff] at this
        exact this.2

theorem dedupByUrl_nodup_urls : ∀ (l : List EventOut) (seen : List String),
    ((dedupByUrl l seen).map (fun e => e.event_url)).Nodup := by
  intro l
  induction l with
  | nil => intro seen; simp [dedupByUrl]
  | cons e rest ih =>
    intro seen
    by_cases h : hasStr seen e.event_url = true
    · rw [dedupByUrl, if_pos h]; exact ih seen
    · rw [dedupByUrl, if_neg (by simp_all), List.map_cons, List.nodup_cons]
      refine ⟨?_, ih (e.event_url :: seen)⟩
      intro hmem
      rcases List.mem_map.mp hmem with ⟨y, hy, hyu⟩
      have := mem_dedupByUrl_not_seen rest (e.event_url :: seen) y hy
      rw [hasStr] at this
      simp only [List.any_cons, Bool.or_eq_false_iff, decide_eq_false_iff_not] at this
      exact this.1 hyu.symm

theorem dedupByUrl_find_first : ∀ (l : List EventOut) (seen : List String)
    (x : EventOut), x ∈ dedupByUrl l seen →
    l.find? (fun y => decide (y.event_url = x.event_url)) = some x := by
  intro l
  induction l with
  | nil => intro seen x hx; simp [dedupByUrl] at hx
  | cons e rest ih =>
    intro seen x hx
    have hxseen := mem_dedupByUrl_not_seen (e :: rest) seen x hx
    by_cases h : hasStr seen e.event_url = true
    · rw [dedupByUrl, if_pos h] at hx
      have hne : e.event_url ≠ x.event_url := by
        intro heq
        rw [← heq, h] at hxseen
        exact absurd hxseen (by decide)
      simp only [List.find?, decide_eq_false hne]
      exact ih seen x hx
    · rw [dedupByUrl, if_neg (by simp_all)] at hx
      rcases List.mem_cons.mp hx with rfl | hx'
      · simp [List.find?]
      · have hns := mem_dedupByUrl_not_seen rest (e.event_url :: seen) x hx'
        rw [hasStr] at hns
        simp only [List.any_cons, Bool.or_eq_false_iff, decide_eq_false_iff_not] at hns
        simp only [List.find?, decide_eq_false hns.1]
        exact ih (e.event_url :: seen) x hx'

theorem dedupByUrl_of_nodup : ∀ (l : List EventOut) (seen : List String),
    (l.map (fun e => e.event_url)).Nodup →
    (∀ u ∈ l.map (fun e => e.event_url), hasStr seen u = false) →
    dedupByUrl l seen = l := by
  intro l
  induction l with
  | nil => intro seen _ _; simp [dedupByUrl]
  | cons e rest ih =>
    intro seen hnd hseen
    have he : hasStr seen e.event_url = false := hseen e.event_url (by simp)
    rw [dedupByUrl, if_neg (by simp [he])]
    congr 1
    rw [List.map_cons, List.nodup_cons] at hnd
    refine ih (e.event_url :: seen) hnd.2 ?_
    intro u hu
    rw [hasStr]
    simp only [List.any_cons, Bool.or_eq_false_iff, decide_eq_false_iff_not]
    constructor
    · intro heq; exact hnd.1 (heq ▸ hu)
    · have := hseen u (by simp [hu])
      rw [hasStr] at this
      exact this

/-- Survivors of the full validator come from the guard chain. -/
theorem mem_validateAndFilterEvents (raw : Json) (opts : ValidateOpts) (x : EventOut)
    (hx : x ∈ validateAndFilterEvents raw opts) :
    ∃ c, checkFields opts c = some x := by
  unfold validateAndFilterEvents at hx
  have hx1 : x ∈ dedupByUrl (filteredCandidates raw opts) [] :=
    List.take_subset _ _ hx
  have hx2 : x ∈ filteredCandidates raw opts :=
    (dedupByUrl_sublist _ _).subset hx1
  unfold filteredCandidates at hx2
  split at hx2
  next items =>
    rcases List.mem_filterMap.mp hx2 with ⟨item, _, hitem⟩
    unfold checkCandidate at hitem
    rcases Option.bind_eq_some.mp hitem with ⟨c, _, hc⟩
    exact ⟨c, hc⟩
  next => simp at hx2

/-! ## Genre sentinel lemmas -/

theorem known_genres_trim : ∀ g ∈ KNOWN_GENRES, jsTrim g = g := by decide

theorem known_genres_ne_empty : ∀ g ∈ KNOWN_GENRES, g ≠ "" := by decide

theorem known_genres_lower_trim_ne : ∀ g ∈ KNOWN_GENRES, jsTrim (jsLower g) ≠ "" := by decide

/-- If the selection contains (after trimming) every vocabulary entry, the
sentinel fires. -/
theorem isAllGenres_of_superset (gs : List String)
    (h : ∀ g ∈ KNOWN_GENRES, ∃ x ∈ gs, jsTrim x = g) :
    isAllGenresSelection (some gs) = true := by
  have hne : gs ≠ [] := by
    rcases h "Jazz" (by decide) with ⟨x, hx, _⟩
    exact fun hnil => by simp [hnil] at hx
  rw [isAllGenresSelection, if_neg (by simpa using fun h0 => hne (List.length_eq_zero.mp h0))]
  rw [List.all_eq_true]
  intro g hg
  rcases h g hg with ⟨x, hx, hxg⟩
  rw [hasStr_iff]
  unfold trimmedSelected
  rw [List.mem_filter]
  refine ⟨hxg ▸ List.mem_map_of_mem jsTrim hx, ?_⟩
  simpa using hxg ▸ known_genres_ne_empty g hg

/-- If some vocabulary entry has no (trimmed) match in the selection, the
sentinel does not fire. -/
theorem isAllGenres_of_missing (gs : List String)
    (h : ∃ g ∈ KNOWN_GENRES, ∀ x ∈ gs, jsTrim x ≠ g) :
    isAllGenresSelection (some gs) = false := by
  rcases h with ⟨g, hg, hmiss⟩
  rw [isAllGenresSelection]
  split
  · rfl
  · rw [List.all_eq_false]
    refine ⟨g, hg, ?_⟩
    rw [Bool.not_eq_true, ← Bool.not_eq_true, hasStr_iff]
    intro hmem
    unfold trimmedSelected at hmem
    rcases List.mem_filter.mp hmem with ⟨hmem', _⟩
    rcases List.mem_map.mp hmem' with ⟨x, hx, hxg⟩
    exact hmiss x hx hxg

theorem applyGenreFilter_of_all (genres : Option (List String))
    (h : isAllGenresSelection genres = true) : applyGenreFilter genres = false := by
  simp [applyGenreFilter, h]

/-- C10: the all-genres sentinel accepts any selection containing (after
trimming) every entry of the fixed 12-genre vocabulary — including strict
supersets with unknown labels — and such selections disable the genre
filter in the validator and produce the "any genre" prompt fragments; the
sentinel rejects a missing (`undefined`/`null`) and an empty selection. -/
theorem all_genres_sentinel_superset_and_empty :
    (∀ gs : List String, (∀ g ∈ KNOWN_GENRES, ∃ x ∈ gs, jsTrim x = g) →
      isAllGenresSelection (some gs) = true ∧
      applyGenreFilter (some gs) = false ∧
      promptPreferredGenres gs = "any genre" ∧
      promptGenreRule gs = "- genre: no filtering required.\n") ∧
    isAllGenresSelection none = false ∧
    isAllGenresSelection (some []) = false := by
  refine ⟨?_, rfl, rfl⟩
  intro gs h
  have hall := isAllGenres_of_superset gs h
  exact ⟨hall, applyGenreFilter_of_all _ hall,
    by rw [promptPreferredGenres, if_pos (Or.inr hall)],
    by rw [promptGenreRule, if_pos (Or.inl hall)]⟩

/-- C10 witness: a strict superset of the vocabulary (with an unknown
label and whitespace padding) is treated as all-genres; `null` and `[]`
are not. -/
theorem all_genres_sentinel_superset_and_empty_witness :
    isAllGenresSelection (some ("Klezmer" :: " Jazz " :: KNOWN_GENRES)) = true ∧
    applyGenreFilter (some ("Klezmer" :: " Jazz " :: KNOWN_GENRES)) = false ∧
    isAllGenresSelection none = false ∧
    isAllGenresSelection (some []) = false := by
  have h := all_genres_sentinel_superset_and_empty
  refine ⟨(h.1 _ ?_).1, (h.1 _ ?_).2.1, h.2.1, h.2.2⟩ <;> decide

theorem preferredGenres_ne_nil (gs : List String) (x : String)
    (hx : x ∈ gs) (hk : x ∈ KNOWN_GENRES) : preferredGenres (some gs) ≠ [] := by
  apply List.ne_nil_of_mem (a := jsTrim (jsLower x))
  unfold preferredGenres
  rw [List.mem_filter]
  exact ⟨List.mem_map_of_mem _ hx, by simpa using known_genres_lower_trim_ne x hk⟩

/-- C2: a selection equal (as a set, any order, duplicates allowed) to the
full 12-genre vocabulary disables the genre filter — a candidate with
arbitrary (e.g. zero-overlap) genres passes the guard chain provided the
non-emptiness, date-window and grounding checks hold; a non-empty proper
subset of the vocabulary keeps the filter — a surviving candidate must
have a genre matching a selected one case-insensitively after trimming. -/
theorem all_genres_vs_subset_filter :
    (∀ (gs : List String) (opts : ValidateOpts) (c : CandidateFields),
      (∀ g ∈ KNOWN_GENRES, g ∈ gs) → (∀ x ∈ gs, x ∈ KNOWN_GENRES) →
      opts.genres = some gs →
      c.event_name ≠ "" → c.date ≠ "" → c.venue ≠ "" → c.event_url ≠ "" →
      (∃ ms, parseDateMs c.date = some ms ∧ opts.wstart ≤ ms ∧ ms ≤ opts.wend) →
      (∃ host, urlHost c.event_url = some host ∧
        (hasStr opts.allowedUrls c.event_url = true ∨
          (host ≠ "" ∧ hasStr opts.allowedHosts host = true))) →
      checkFields opts c =
        some ⟨c.event_name, c.artists, c.genres, c.date, c.venue, c.event_url⟩) ∧
    (∀ (gs : List String) (opts : ValidateOpts) (c : CandidateFields) (e : EventOut),
      (∀ x ∈ gs, x ∈ KNOWN_GENRES) → gs ≠ [] → (∃ g ∈ KNOWN_GENRES, g ∉ gs) →
      opts.genres = some gs →
      checkFields opts c = some e →
      ∃ g ∈ c.genres, ∃ p ∈ gs, jsTrim (jsLower g) = jsTrim (jsLower p)) := by
  constructor
  · intro gs opts c hfull _ hopts hn hd hv hu ⟨ms, hms, hlo, hhi⟩ ⟨host, hhost, hurl⟩
    have hall : isAllGenresSelection (some gs) = true :=
      isAllGenres_of_superset gs (fun g hg => ⟨g, hfull g hg, known_genres_trim g hg⟩)
    exact checkFields_accepts opts c hn hd hv hu ms hms hlo hhi host hhost hurl
      (by rw [hopts, applyGenreFilter_of_all _ hall]; intro h; cases h)
  · intro gs opts c e hsub hne hproper hopts h
    obtain ⟨_, _, _, _, _, _, _, hgen⟩ := checkFields_inv opts c e h
    have hx0 : ∃ x, x ∈ gs := List.exists_mem_of_ne_nil gs hne
    obtain ⟨x0, hx0⟩ := hx0
    have hpref : preferredGenres (some gs) ≠ [] :=
      preferredGenres_ne_nil gs x0 hx0 (hsub x0 hx0)
    have hmiss : isAllGenresSelection (some gs) = false := by
      obtain ⟨g, hg, hnotin⟩ := hproper
      refine isAllGenres_of_missing gs ⟨g, hg, ?_⟩
      intro x hx
      rw [known_genres_trim x (hsub x hx)]
      exact fun heq => hnotin (heq ▸ hx)
    have hfilter : applyGenreFilter opts.genres = true := by
      rw [hopts, applyGenreFilter, hmiss]
      simp [hpref]
    have hany := hgen hfilter
    rw [List.any_eq_true] at hany
    obtain ⟨g, hgmem, hghas⟩ := hany
    rw [hasStr_iff] at hghas
    unfold preferredGenres at hghas
    rcases List.mem_filter.mp hghas with ⟨hmem', _⟩
    rw [hopts] at hmem'
    rcases List.mem_map.mp hmem' with ⟨p, hp, hpe⟩
    exact ⟨g, hgmem, p, hp, hpe.symm⟩

def wOptsA : ValidateOpts :=
  { genres := some ("Metal" :: KNOWN_GENRES ++ ["Jazz"])
    allowedUrls := ["https://barby.co.il/events"]
    allowedHosts := ["barby.co.il"]
    wstart := 1781000000000
    wend := 1782000000000 }

def wCandA : CandidateFields :=
  { event_name := "Noise Night", venue := "Barby", date := "2026-06-15"
    event_url := "https://barby.co.il/events/noise", artists := [], genres := ["Techno"] }

def wOptsB : ValidateOpts :=
  { genres := some ["Jazz"]
    allowedUrls := ["https://barby.co.il/events"]
    allowedHosts := ["barby.co.il"]
    wstart := 1781000000000
    wend := 1782000000000 }

def wCandB : CandidateFields :=
  { event_name := "Jazz Night", venue := "Barby", date := "2026-06-15"
    event_url := "https://barby.co.il/events/jazz", artists := [], genres := ["JAZZ "] }

/-- C2 witness: a duplicated, reordered full-vocabulary selection lets a
zero-overlap candidate through; under the proper subset `["Jazz"]` a
surviving candidate exhibits a case-insensitive trimmed genre match. -/
theorem all_genres_vs_subset_filter_witness :
    checkFields wOptsA wCandA =
      some ⟨"Noise Night", [], ["Techno"], "2026-06-15", "Barby",
        "https://barby.co.il/events/noise"⟩ ∧
    ∃ g ∈ wCandB.genres, ∃ p ∈ ["Jazz"], jsTrim (jsLower g) = jsTrim (jsLower p) := by
  constructor
  · exact all_genres_vs_subset_filter.1 ("Metal" :: KNOWN_GENRES ++ ["Jazz"]) wOptsA wCandA
      (by decide) (by decide) rfl (by decide) (by decide) (by decide) (by decide)
      ⟨1781481600000, rfl, by decide, by decide⟩
      ⟨"barby.co.il", rfl, Or.inr ⟨by decide, by decide⟩⟩
  · exact all_genres_vs_subset_filter.2 ["Jazz"] wOptsB wCandB
      ⟨"Jazz Night", [], ["JAZZ "], "2026-06-15", "Barby", "https://barby.co.il/events/jazz"⟩
      (by decide) (by decide) ⟨"Metal", by decide, by decide⟩ rfl (by decide)

/-- C1: every event surviving the validator has an `event_url` that parses
as an absolute URL and is grounded — the exact URL is in the URL set of
the allow-list or the parsed host is in its host set; hence any candidate whose
URL fails to parse, or is grounded in neither set, is rejected no matter
how well its other fields match. -/
theorem grounding_enforced (raw : Json) (opts : ValidateOpts) (ev : EventOut)
    (hev : ev ∈ validateAndFilterEvents raw opts) :
    ∃ host, urlHost ev.event_url = some host ∧
      (ev.event_url ∈ opts.allowedUrls ∨ host ∈ opts.allowedHosts) := by
  rcases mem_validateAndFilterEvents raw opts ev hev with ⟨c, hc⟩
  obtain ⟨heq, _, _, _, _, _, ⟨host, hhost, hurl⟩, _⟩ := checkFields_inv opts c ev hc
  subst heq
  refine ⟨host, hhost, ?_⟩
  rcases hurl with ht | ⟨_, hh⟩
  · exact Or.inl ((hasStr_iff _ _).mp ht)
  · exact Or.inr ((hasStr_iff _ _).mp hh)

def wOptsN : ValidateOpts :=
  { genres := none
    allowedUrls := ["https://barby.co.il/events"]
    allowedHosts := ["barby.co.il"]
    wstart := 1781481600000
    wend := 1782000000000 }

def wRawN : Json := Json.arr
  [Json.obj [("event_name", Json.str "Jazz Night"), ("venue", Json.str "Barby"),
    ("date", Json.str "2026-06-15"),
    ("event_url", Json.str "https://barby.co.il/events/jazz-night")]]

def wEvN : EventOut :=
  ⟨"Jazz Night", [], [], "2026-06-15", "Barby", "https://barby.co.il/events/jazz-night"⟩

/-- C1 witness: the surviving event of a concrete run is grounded by host. -/
theorem grounding_enforced_witness :
    ∃ host, urlHost wEvN.event_url = some host ∧
      (wEvN.event_url ∈ wOptsN.allowedUrls ∨ host ∈ wOptsN.allowedHosts) :=
  grounding_enforced wRawN wOptsN wEvN (by decide)

/-- C3: every event surviving the validator has a `date` that parses to a
time value inside `[wstart, wend]` (so unparsable or out-of-window dates
are discarded); and the bounds are inclusive — a candidate whose parsed
date equals either window boundary and passes the other guards is kept. -/
theorem date_window_enforced :
    (∀ (raw : Json) (opts : ValidateOpts) (ev : EventOut),
      ev ∈ validateAndFilterEvents raw opts →
      ∃ ms, parseDateMs ev.date = some ms ∧ opts.wstart ≤ ms ∧ ms ≤ opts.wend) ∧
    (∀ (opts : ValidateOpts) (c : CandidateFields) (ms : Int),
      c.event_name ≠ "" → c.date ≠ "" → c.venue ≠ "" → c.event_url ≠ "" →
      parseDateMs c.date = some ms → (ms = opts.wstart ∨ ms = opts.wend) →
      opts.wstart ≤ opts.wend →
      (∃ host, urlHost c.event_url = some host ∧
        (hasStr opts.allowedUrls c.event_url = true ∨
          (host ≠ "" ∧ hasStr opts.allowedHosts host = true))) →
      (applyGenreFilter opts.genres = true →
        c.genres.any (fun g => hasStr (preferredGenres opts.genres) (jsTrim (jsLower g))) = true) →
      checkFields opts c ≠ none) := by
  constructor
  · intro raw opts ev hev
    rcases mem_validateAndFilterEvents raw opts ev hev with ⟨c, hc⟩
    obtain ⟨heq, _, _, _, _, ⟨ms, hms, hlo, hhi⟩, _, _⟩ := checkFields_inv opts c ev hc
    subst heq
    exact ⟨ms, hms, hlo, hhi⟩
  · intro opts c ms hn hd hv hu hms hbound hwin ⟨host, hhost, hurl⟩ hgen
    have hlo : opts.wstart ≤ ms := by rcases hbound with rfl | rfl <;> omega
    have hhi : ms ≤ opts.wend := by rcases hbound with rfl | rfl <;> omega
    rw [checkFields_accepts opts c hn hd hv hu ms hms hlo hhi host hhost hurl hgen]
    simp

/-- C3 witness: the survivor of the concrete run parses in-window, and a
candidate dated exactly at the window start is kept. -/
theorem date_window_enforced_witness :
    (∃ ms, parseDateMs wEvN.date = some ms ∧ wOptsN.wstart ≤ ms ∧ ms ≤ wOptsN.wend) ∧
    checkFields wOptsN wCandA ≠ none := by
  constructor
  · exact date_window_enforced.1 wRawN wOptsN wEvN (by decide)
  · exact date_window_enforced.2 wOptsN wCandA 1781481600000
      (by decide) (by decide) (by decide) (by decide) rfl (Or.inl rfl) (by decide)
      ⟨"barby.co.il", rfl, Or.inr ⟨by decide, by decide⟩⟩
      (by intro h; cases h)

/-- Every URL reaching the dedup pass keeps a representative: the first
event bearing it. -/
theorem dedupByUrl_exists : ∀ (l : List EventOut) (seen : List String) (ev : EventOut),
    ev ∈ l → hasStr seen ev.event_url = false →
    ∃ ev', ev' ∈ dedupByUrl l seen ∧ ev'.event_url = ev.event_url := by
  intro l
  induction l with
  | nil => intro seen ev hev _; simp at hev
  | cons e rest ih =>
    intro seen ev hev hseen
    by_cases h : hasStr seen e.event_url = true
    · rw [dedupByUrl, if_pos h]
      rcases List.mem_cons.mp hev with rfl | hev'
      · rw [hseen] at h; cases h
      · exact ih seen ev hev' hseen
    · simp only [Bool.not_eq_true] at h
      rw [dedupByUrl, if_neg (by simp [h])]
      by_cases hu : e.event_url = ev.event_url
      · exact ⟨e, by simp, hu⟩
      · rcases List.mem_cons.mp hev with rfl | hev'
        · exact absurd rfl hu
        · have hseen' : hasStr (e.event_url :: seen) ev.event_url = false := by
            rw [hasStr]
            simp only [List.any_cons, Bool.or_eq_false_iff, decide_eq_false_iff_not]
            exact ⟨hu, by rw [hasStr] at hseen; exact hseen⟩
          rcases ih (e.event_url :: seen) ev hev' hseen' with ⟨ev', hmem, hurl⟩
          exact ⟨ev', by simp [hmem], hurl⟩

/-- C4: after per-candidate filtering the validator deduplicates by exact
`event_url` keeping the first occurrence, then truncates to at most 10,
preserving the original relative order: the output has length ≤ 10 and
pairwise-distinct URLs, is a sublist (order-preserving) of the filtered
candidates, each output event is the FIRST filtered candidate bearing its
URL, when the filtered candidates already have pairwise-distinct URLs the
output is exactly their first 10 in order, and — whenever the
deduplicated list is within the cap so that truncation drops nothing —
every filtered candidate (in particular every later duplicate) is
represented in the OUTPUT by exactly one surviving event, the first
filtered candidate with its URL. -/
theorem dedup_and_cap (raw : Json) (opts : ValidateOpts) :
    (validateAndFilterEvents raw opts).length ≤ 10 ∧
    ((validateAndFilterEvents raw opts).map (fun e => e.event_url)).Nodup ∧
    (validateAndFilterEvents raw opts).Sublist (filteredCandidates raw opts) ∧
    (∀ ev ∈ validateAndFilterEvents raw opts,
      (filteredCandidates raw opts).find?
        (fun y => decide (y.event_url = ev.event_url)) = some ev) ∧
    (((filteredCandidates raw opts).map (fun e => e.event_url)).Nodup →
      validateAndFilterEvents raw opts = (filteredCandidates raw opts).take 10) ∧
    ((dedupByUrl (filteredCandidates raw opts) []).length ≤ 10 →
      ∀ ev ∈ filteredCandidates raw opts,
        ∃ ev', ev' ∈ validateAndFilterEvents raw opts ∧
          ev'.event_url = ev.event_url ∧
          (filteredCandidates raw opts).find?
            (fun y => decide (y.event_url = ev.event_url)) = some ev') := by
  refine ⟨?_, ?_, ?_, ?_, ?_, ?_⟩
  · exact List.length_take_le 10 _
  · have h1 : (validateAndFilterEvents raw opts).map (fun e => e.event_url) |>.Sublist
        ((dedupByUrl (filteredCandidates raw opts) []).map (fun e => e.event_url)) :=
      (List.take_sublist 10 _).map _
    exact (dedupByUrl_nodup_urls _ _).sublist h1
  · exact (List.take_sublist 10 _).trans (dedupByUrl_sublist _ _)
  · intro ev hev
    exact dedupByUrl_find_first _ [] ev (List.take_subset _ _ hev)
  · intro hnd
    unfold validateAndFilterEvents
    rw [dedupByUrl_of_nodup _ [] hnd (fun u _ => rfl)]
  · intro hlen ev hev
    rcases dedupByUrl_exists (filteredCandidates raw opts) [] ev hev rfl
      with ⟨ev', hmem, hurl⟩
    have hout : validateAndFilterEvents raw opts =
        dedupByUrl (filteredCandidates raw opts) [] := by
      unfold validateAndFilterEvents
      exact List.take_of_length_le hlen
    have hfind := dedupByUrl_find_first (filteredCandidates raw opts) [] ev' hmem
    rw [hurl] at hfind
    exact ⟨ev', hout ▸ hmem, hurl, hfind⟩

def mkItemW (n : String) : Json :=
  Json.obj [("event_name", Json.str ("E" ++ n)), ("venue", Json.str "Barby"),
    ("date", Json.str "2026-06-15"),
    ("event_url", Json.str ("https://barby.co.il/events/" ++ n))]

def wRawDup : Json := Json.arr
  [Json.obj [("event_name", Json.str "Jazz Night"), ("venue", Json.str "Barby"),
    ("date", Json.str "2026-06-15"),
    ("event_url", Json.str "https://barby.co.il/events/jazz-night")],
   Json.obj [("event_name", Json.str "Other Name"), ("venue", Json.str "Elsewhere"),
    ("date", Json.str "2026-06-16"),
    ("event_url", Json.str "https://barby.co.il/events/jazz-night")],
   mkItemW "b"]

def wRawBig : Json :=
  Json.arr (["a", "b", "c", "d", "e", "f", "g", "h", "i", "j", "k", "l"].map mkItemW)

/-- C4 witness: with two candidates sharing a URL the output contains
exactly one surviving event for that URL — the first candidate — followed
by the other URL in order; with 12 valid distinct candidates the output is
exactly the first 10 in original order. -/
theorem dedup_and_cap_witness :
    (validateAndFilterEvents wRawDup wOptsN).length ≤ 10 ∧
    (∃ ev', ev' ∈ validateAndFilterEvents wRawDup wOptsN ∧
      ev'.event_url = "https://barby.co.il/events/jazz-night" ∧
      (filteredCandidates wRawDup wOptsN).find?
        (fun y => decide (y.event_url = "https://barby.co.il/events/jazz-night")) =
        some ev') ∧
    validateAndFilterEvents wRawDup wOptsN =
      [wEvN, ⟨"Eb", [], [], "2026-06-15", "Barby", "https://barby.co.il/events/b"⟩] ∧
    validateAndFilterEvents wRawBig wOptsN = (filteredCandidates wRawBig wOptsN).take 10 ∧
    (validateAndFilterEvents wRawBig wOptsN).length = 10 := by
  refine ⟨(dedup_and_cap wRawDup wOptsN).1, ?_, by decide,
    (dedup_and_cap wRawBig wOptsN).2.2.2.2.1 (by decide), by decide⟩
  exact (dedup_and_cap wRawDup wOptsN).2.2.2.2.2 (by decide)
    ⟨"Other Name", [], [], "2026-06-16", "Elsewhere",
      "https://barby.co.il/events/jazz-night"⟩ (by decide)

def wFenced : String :=
  "```json\n[\x7b\"event_name\": \"Jazz Night\", \"venue\": \"Barby\", \"date\": \"2026-06-15\", \"event_url\": \"https://barby.co.il/events/jazz-night\"\x7d]\n```"

set_option maxRecDepth 40000 in
/-- C5: the response handling strips a Markdown code fence (with optional
language tag) and trims before `JSON.parse`; a failed parse or a non-array
value yields zero candidates, and the whole path is a total function (no
exception escapes); in particular `"not json"` and `"[]"` give `[]`, and a
fence-wrapped payload gives the correctly parsed, validated list. -/
theorem malformed_output_resilience :
    (∀ (s : String) (opts : ValidateOpts), parseJson (stripCodeFence s) = none →
      extractEventsFromContent s opts = []) ∧
    (∀ (s : String) (opts : ValidateOpts) (v : Json), parseJson (stripCodeFence s) = some v →
      (∀ items, v ≠ Json.arr items) → extractEventsFromContent s opts = []) ∧
    (∀ opts, extractEventsFromContent "not json" opts = []) ∧
    (∀ opts, extractEventsFromContent "[]" opts = []) ∧
    stripCodeFence wFenced =
      "[\x7b\"event_name\": \"Jazz Night\", \"venue\": \"Barby\", \"date\": \"2026-06-15\", \"event_url\": \"https://barby.co.il/events/jazz-night\"\x7d]" ∧
    extractEventsFromContent wFenced wOptsN = [wEvN] := by
  refine ⟨?_, ?_, fun _ => rfl, fun _ => rfl, by decide, by decide⟩
  · intro s opts h
    simp [extractEventsFromContent, h]
  · intro s opts v h hv
    simp only [extractEventsFromContent, h]
    cases v with
    | arr items => exact absurd rfl (hv items)
    | null => rfl
    | bool b => rfl
    | num lx => rfl
    | str s' => rfl
    | obj fs => rfl

/-- C5 witness: the two general clauses applied at `"not json"` (parse
failure) and at the non-array payload `"\x7b\x7d"`. -/
theorem malformed_output_resilience_witness :
    extractEventsFromContent "not json" wOptsN = [] ∧
    extractEventsFromContent "\x7b\x7d" wOptsN = [] := by
  refine ⟨malformed_output_resilience.1 "not json" wOptsN rfl,
    malformed_output_resilience.2.1 "\x7b\x7d" wOptsN (Json.obj []) rfl ?_⟩
  intro items h
  cases h

/-- C6: the time window resolver returns `start = now` unmodified with
`start ≤ end` for every `eventWindow` string; for `"This weekend"` the end
is 23:59:59.999 UTC of the upcoming Sunday (today when `now` is a UTC
Sunday — the end is a Sunday, at day offset 86399999 ms, within 7 days);
any value other than the three named windows (including `"This month"`,
the empty string and arbitrary unrecognized strings) falls back, without
error, to the last instant of the current UTC calendar month. -/
theorem time_window_resolution (ew : String) (now : Int) :
    (getTimeWindowRange ew now).wstart = now ∧
    now ≤ (getTimeWindowRange ew now).wend ∧
    (ew = "This weekend" →
      weekdayOfMs (getTimeWindowRange ew now).wend = 0 ∧
      (getTimeWindowRange ew now).wend % 86400000 = 86399999 ∧
      (getTimeWindowRange ew now).wend < now + 7 * msPerDay) ∧
    (ew ≠ "This weekend" → ew ≠ "Next 7 days" → ew ≠ "Next 2 weeks" →
      (getTimeWindowRange ew now).wend = endOfCurrentMonthMs now) := by
  by_cases h1 : ew = "This weekend"
  · subst h1
    have hr : getTimeWindowRange "This weekend" now =
        ⟨now, endOfDayMs (dayOfMs now + (7 - (dayOfMs now + 4) % 7) % 7)⟩ := by
      simp [getTimeWindowRange]
    rw [hr]
    dsimp only
    refine ⟨rfl, ?_, ?_, ?_⟩
    · unfold endOfDayMs dayOfMs; omega
    · intro _
      unfold endOfDayMs weekdayOfMs dayOfMs msPerDay
      refine ⟨by omega, by omega, by omega⟩
    · intro h _ _; exact absurd rfl h
  · by_cases h2 : ew = "Next 7 days"
    · subst h2
      have hr : getTimeWindowRange "Next 7 days" now = ⟨now, now + 7 * msPerDay⟩ := by
        simp [getTimeWindowRange]
      rw [hr]
      dsimp only
      refine ⟨rfl, by unfold msPerDay; omega, ?_, ?_⟩
      · intro h; exact absurd h (by decide)
      · intro _ h _; exact absurd rfl h
    · by_cases h3 : ew = "Next 2 weeks"
      · subst h3
        have hr : getTimeWindowRange "Next 2 weeks" now = ⟨now, now + 14 * msPerDay⟩ := by
          simp [getTimeWindowRange]
        rw [hr]
        dsimp only
        refine ⟨rfl, by unfold msPerDay; omega, ?_, ?_⟩
        · intro h; exact absurd h (by decide)
        · intro _ _ h; exact absurd rfl h
      · have hr : getTimeWindowRange ew now = ⟨now, endOfCurrentMonthMs now⟩ := by
          unfold getTimeWindowRange
          by_cases h0 : ew = ""
          · subst h0; simp
          · simp [h0, h1, h2, h3]
        rw [hr]
        dsimp only
        exact ⟨rfl, le_endOfCurrentMonthMs now, fun h => absurd h h1, fun _ _ _ => rfl⟩

/-- C6 witness: the resolver applied at a concrete Monday instant
(2026-06-15T00:00Z) for `"This weekend"` and for the unrecognized value
`"Whenever"`. -/
theorem time_window_resolution_witness :
    (getTimeWindowRange "This weekend" 1781481600000).wstart = 1781481600000 ∧
    weekdayOfMs (getTimeWindowRange "This weekend" 1781481600000).wend = 0 ∧
    (getTimeWindowRange "Whenever" 1781481600000).wend = endOfCurrentMonthMs 1781481600000 ∧
    1781481600000 ≤ (getTimeWindowRange "Whenever" 1781481600000).wend := by
  refine ⟨(time_window_resolution "This weekend" 1781481600000).1,
    ((time_window_resolution "This weekend" 1781481600000).2.2.1 rfl).1,
    (time_window_resolution "Whenever" 1781481600000).2.2.2 (by decide) (by decide) (by decide),
    (time_window_resolution "Whenever" 1781481600000).2.1⟩

/-- C7: with an empty gathered-source list the pipeline returns success
(HTTP 200) with an empty event list and a `sourceCount = 0` diagnostic and
does not issue the model call; with a non-empty source list the model call
is issued and the diagnostic carries the source count. -/
theorem zero_sources_short_circuit :
    (∀ (brief : Brief) (content : String) (now : Int),
      fetchEventsPipeline brief [] content now =
        { status := 200, events := [], sourceCount := 0, calledAI := false }) ∧
    (∀ (brief : Brief) (sources : List SourceDoc) (content : String) (now : Int),
      sources ≠ [] →
      (fetchEventsPipeline brief sources content now).calledAI = true ∧
      (fetchEventsPipeline brief sources content now).sourceCount = sources.length ∧
      (fetchEventsPipeline brief sources content now).status = 200) := by
  refine ⟨fun _ _ _ => rfl, ?_⟩
  intro brief sources content now h
  have hlen : sources.length ≠ 0 := fun h0 => h (List.length_eq_zero.mp h0)
  unfold fetchEventsPipeline
  rw [if_neg hlen]
  exact ⟨rfl, rfl, rfl⟩

def wBrief : Brief :=
  { artists := [], genres := some ["Jazz"], venues := ["barby"],
    eventWindow := some "Next 7 days" }

def wDoc : SourceDoc :=
  { url := "https://barby.co.il/events", title := none,
    markdown := "Jazz Night https://barby.co.il/events/jazz-night" }

/-- C7 witness: the short-circuit at an empty source list, and the
contrasting non-empty behaviour at one concrete document. -/
theorem zero_sources_short_circuit_witness :
    fetchEventsPipeline wBrief [] "[]" 1781481600000 =
      { status := 200, events := [], sourceCount := 0, calledAI := false } ∧
    (fetchEventsPipeline wBrief [wDoc] "[]" 1781481600000).calledAI = true :=
  ⟨zero_sources_short_circuit.1 wBrief "[]" 1781481600000,
   (zero_sources_short_circuit.2 wBrief [wDoc] "[]" 1781481600000 (by simp)).1⟩

/-! ## Query dedup lemmas -/

theorem dedupStr_sublist : ∀ (l seen : List String), (dedupStr l seen).Sublist l := by
  intro l
  induction l with
  | nil => intro seen; simp [dedupStr]
  | cons s rest ih =>
    intro seen
    by_cases h : hasStr seen s = true
    · simpa [dedupStr, h] using (ih seen).cons s
    · simp only [Bool.not_eq_true] at h
      simpa [dedupStr, h] using (ih (s :: seen)).cons₂ s

theorem mem_dedupStr_not_seen : ∀ (l seen : List String) (x : String),
    x ∈ dedupStr l seen → hasStr seen x = false := by
  intro l
  induction l with
  | nil => intro seen x hx; simp [dedupStr] at hx
  | cons s rest ih =>
    intro seen x hx
    by_cases h : hasStr seen s = true
    · rw [dedupStr, if_pos h] at hx
      exact ih seen x hx
    · simp only [Bool.not_eq_true] at h
      rw [dedupStr, if_neg (by simp [h])] at hx
      rcases List.mem_cons.mp hx with rfl | hx'
      · exact h
      · have := ih (s :: seen) x hx'
        rw [hasStr] at this ⊢
        simp only [List.any_cons, Bool.or_eq_false_iff] at this
        exact this.2

theorem dedupStr_nodup : ∀ (l seen : List String), (dedupStr l seen).Nodup := by
  intro l
  induction l with
  | nil => intro seen; simp [dedupStr]
  | cons s rest ih =>
    intro seen
    by_cases h : hasStr seen s = true
    · rw [dedupStr, if_pos h]; exact ih seen
    · rw [dedupStr, if_neg (by simp_all), List.nodup_cons]
      refine ⟨?_, ih (s :: seen)⟩
      intro hmem
      have := mem_dedupStr_not_seen rest (s :: seen) s hmem
      rw [hasStr] at this
      simp at this

/-- One query per venue that has a (non-empty) primary domain. -/
theorem mkQuery_eq_some (v : String) (year : Nat)
    (h : (lookupDomains v).head?.getD "" ≠ "") :
    mkQuery v year =
      some ("site:" ++ (lookupDomains v).head?.getD "" ++ " Tel Aviv events " ++
        natToString year) := by
  unfold mkQuery
  cases hl : (lookupDomains v).head? with
  | none => exact absurd (by rw [hl]; rfl) h
  | some d =>
    rw [hl] at h
    simp only [Option.getD_some] at h
    dsimp only
    rw [if_neg h]
    rfl

theorem filterMap_mkQuery_eq_map (year : Nat) : ∀ (ids : List String),
    (∀ v ∈ ids, (lookupDomains v).head?.getD "" ≠ "") →
    ids.filterMap (fun vid => mkQuery vid year) =
      ids.map (fun v =>
        "site:" ++ (lookupDomains v).head?.getD "" ++ " Tel Aviv events " ++
          natToString year) := by
  intro ids
  induction ids with
  | nil => intro _; rfl
  | cons v rest ih =>
    intro h
    rw [List.filterMap_cons, mkQuery_eq_some v year (h v (by simp)), List.map_cons]
    exact congrArg _ (ih (fun u hu => h u (by simp [hu])))

/-- C8: query construction builds exactly one query per selected venue
identifier (per known venue when none is selected), of the form
`site:<primary domain> Tel Aviv events <current year>`, then deduplicates
identical query strings and caps the set at 6.  The per-venue clause
carries the profile invariant that selected venue identifiers belong to
the known vocabulary (every known venue has a non-empty primary domain). -/
theorem search_query_construction :
    (∀ (venues : List String) (year : Nat), venues ≠ [] →
      (∀ v ∈ venues, (lookupDomains v).head?.getD "" ≠ "") →
      buildSearchQueriesRaw venues year =
        venues.map (fun v =>
          "site:" ++ (lookupDomains v).head?.getD "" ++ " Tel Aviv events " ++
            natToString year)) ∧
    (∀ year : Nat, buildSearchQueriesRaw [] year =
      (VENUE_DOMAINS.map (fun p => p.1)).map (fun v =>
        "site:" ++ (lookupDomains v).head?.getD "" ++ " Tel Aviv events " ++
          natToString year)) ∧
    (∀ (venues : List String) (year : Nat),
      buildSearchQueries venues year =
        (dedupStr (buildSearchQueriesRaw venues year) []).take 6) ∧
    (∀ (venues : List String) (year : Nat), (buildSearchQueries venues year).length ≤ 6) ∧
    (∀ (venues : List String) (year : Nat), (buildSearchQueries venues year).Nodup) := by
  refine ⟨?_, ?_, fun _ _ => rfl, fun _ _ => List.length_take_le 6 _, ?_⟩
  · intro venues year hne h
    rw [buildSearchQueriesRaw, if_pos hne]
    exact filterMap_mkQuery_eq_map year venues h
  · intro year
    rw [buildSearchQueriesRaw, if_neg (by simp)]
    exact filterMap_mkQuery_eq_map year _ (by decide)
  · intro venues year
    exact (dedupStr_nodup _ _).sublist (List.take_sublist 6 _)

/-- C8 witness: a duplicated two-venue selection yields one query per
selection entry before dedup, two distinct queries after; no selection
falls back to all 12 known venues, capped at 6. -/
theorem search_query_construction_witness :
    buildSearchQueriesRaw ["barby", "barby", "teder"] 2026 =
      ["site:barby.co.il Tel Aviv events 2026", "site:barby.co.il Tel Aviv events 2026",
       "site:teder.fm Tel Aviv events 2026"] ∧
    buildSearchQueries ["barby", "barby", "teder"] 2026 =
      ["site:barby.co.il Tel Aviv events 2026", "site:teder.fm Tel Aviv events 2026"] ∧
    (buildSearchQueriesRaw [] 2026).length = 12 ∧
    (buildSearchQueries [] 2026).length = 6 := by
  refine ⟨?_, by decide, ?_, by decide⟩
  · have h := search_query_construction.1 ["barby", "barby", "teder"] 2026
      (by decide) (by decide)
    simpa using h
  · rw [search_query_construction.2.1 2026]
    decide

/-- C9: for an empty event list both channels produce the non-empty
"nothing matched this time" body; for a non-empty list the message channel
renders exactly the first `min 10` events (at most 10) and the email
channel exactly the first `min 15` cards (at most 15), and past the cap
each appends its "... and N more events!" indicator with N the number of
events beyond the cap (and no indicator otherwise). -/
theorem digest_composition :
    (∀ b : String, formatWhatsAppMessage b [] = whatsAppNoEvents b ∧
      0 < (whatsAppNoEvents b).length) ∧
    (∀ b : String, formatEmailHtml b [] = emailNoEvents b ∧
      0 < (emailNoEvents b).length) ∧
    (∀ (b : String) (evs : List DigestEvent), evs ≠ [] →
      formatWhatsAppMessage b evs =
        "🎵 *" ++ b ++ "*\n\n" ++
        "Found " ++ natToString evs.length ++ " event" ++
          (if evs.length > 1 then "s" else "") ++ " matching your preferences:\n\n" ++
        String.join ((evs.take 10).enum.map (fun p => renderWhatsAppEvent p.1 p.2)) ++
        whatsAppOverflow evs.length ∧
      ((evs.take 10).enum.map (fun p => renderWhatsAppEvent p.1 p.2)).length ≤ 10 ∧
      (10 < evs.length → whatsAppOverflow evs.length =
        "\n... and " ++ natToString (evs.length - 10) ++ " more events!") ∧
      (evs.length ≤ 10 → whatsAppOverflow evs.length = "")) ∧
    (∀ (b : String) (evs : List DigestEvent), evs ≠ [] →
      formatEmailHtml b evs =
        "\n    <div style=\"font-family: Arial, sans-serif; max-width: 600px; margin: 0 auto; padding: 20px;\">\n" ++
        "      <h1 style=\"color: #f97316; margin-bottom: 4px;\">🎵 " ++ b ++ "</h1>\n" ++
        "      <p style=\"color: #64748b; margin-top: 0;\">Found " ++ natToString evs.length ++
          " event" ++ (if evs.length > 1 then "s" else "") ++ " matching your preferences</p>\n      \n      " ++
        String.join ((evs.take 15).map renderEmailCard) ++
        "\n      \n      " ++
        emailOverflow evs.length ++
        "\n      \n      <hr style=\"border: none; border-top: 1px solid #e2e8f0; margin: 24px 0;\">\n" ++
        "      <p style=\"color: #94a3b8; font-size: 12px; text-align: center;\">\n" ++
        "        You\x27re receiving this because you subscribed to Brief AI digests.<br>\n" ++
        "        Manage your preferences in the app.\n      </p>\n    </div>\n  " ∧
      ((evs.take 15).map renderEmailCard).length ≤ 15 ∧
      (15 < evs.length → emailOverflow evs.length =
        "<p style=\"color: #64748b; text-align: center;\">... and " ++
          natToString (evs.length - 15) ++ " more events!</p>") ∧
      (evs.length ≤ 15 → emailOverflow evs.length = "")) := by
  refine ⟨?_, ?_, ?_, ?_⟩
  · intro b
    refine ⟨by simp [formatWhatsAppMessage], ?_⟩
    rw [whatsAppNoEvents]
    simp only [String.length_append]
    have h1 : 0 < ("📭 *" : String).length := by decide
    omega
  · intro b
    refine ⟨by simp [formatEmailHtml], ?_⟩
    rw [emailNoEvents]
    simp only [String.length_append]
    have h1 : 0 < ("      </div>
    " : String).length := by decide
    omega
  · intro b evs hne
    have hlen : evs.length ≠ 0 := fun h0 => hne (List.length_eq_zero.mp h0)
    refine ⟨by rw [formatWhatsAppMessage, if_neg hlen], ?_, ?_, ?_⟩
    · rw [List.length_map, List.enum_length]
      exact List.length_take_le 10 evs
    · intro h10
      rw [whatsAppOverflow, if_pos h10]
    · intro h10
      rw [whatsAppOverflow, if_neg (by omega)]
  · intro b evs hne
    have hlen : evs.length ≠ 0 := fun h0 => hne (List.length_eq_zero.mp h0)
    refine ⟨by rw [formatEmailHtml, if_neg hlen], ?_, ?_, ?_⟩
    · rw [List.length_map]
      exact List.length_take_le 15 evs
    · intro h15
      rw [emailOverflow, if_pos h15]
    · intro h15
      rw [emailOverflow, if_neg (by omega)]

def mkDE (n : String) : DigestEvent :=
  { id := n, title := "T" ++ n, venue := "V", date := "2026-06-15",
    time := none, artists := none, genres := none, url := none, description := none }

def wDE16 : List DigestEvent :=
  (["a", "b", "c", "d", "e", "f", "g", "h", "i", "j", "k", "l", "m", "n", "o", "p"]).map mkDE

/-- C9 witness: the zero-event bodies are produced and non-empty, and a
16-event list triggers both overflow indicators (6 beyond the message cap,
1 beyond the email cap). -/
theorem digest_composition_witness :
    formatWhatsAppMessage "Brief" [] = whatsAppNoEvents "Brief" ∧
    0 < (whatsAppNoEvents "Brief").length ∧
    formatEmailHtml "Brief" [] = emailNoEvents "Brief" ∧
    whatsAppOverflow wDE16.length = "\n... and " ++ natToString 6 ++ " more events!" ∧
    emailOverflow wDE16.length =
      "<p style=\"color: #64748b; text-align: center;\">... and " ++ natToString 1 ++
        " more events!</p>" ∧
    ((wDE16.take 10).enum.map (fun p => renderWhatsAppEvent p.1 p.2)).length ≤ 10 := by
  refine ⟨(digest_composition.1 "Brief").1, (digest_composition.1 "Brief").2,
    (digest_composition.2.1 "Brief").1, ?_, ?_, ?_⟩
  · exact (digest_composition.2.2.1 "Brief" wDE16 (by decide)).2.2.1 (by decide)
  · exact (digest_composition.2.2.2 "Brief" wDE16 (by decide)).2.2.1 (by decide)
  · exact (digest_composition.2.2.1 "Brief" wDE16 (by decide)).2.1
